import Mathlib

/-!
# Flash-sale concurrency module: shallow embedding

Shallow embedding of the purchase endpoint (`src/app/api/purchase/route.ts`),
the fixed-window rate limiter (`src/lib/rateLimit.ts`) and the Redis client
wrapper (`src/lib/redis.ts`) of the flash-sale repository, together with a
small-step interleaving model of the row-locked purchase transaction.

Modelling conventions:
* JavaScript numbers that the code treats as integers (`stock`, `quantity`,
  `productId`) are modelled as `Int`; `price` / `totalPrice` (read with
  `parseFloat`, `DECIMAL(10,2)` in the schema) are modelled as `Rat`,
  with JS arithmetic on them modelled exactly.
* JSON fields that may be absent are `Option`; JS truthiness of the values the
  code tests with `!x` / `x || y` is modelled explicitly (`0` and `""` falsy).
* The Postgres transaction in the handler is atomic (all statements between
  `BEGIN` and `COMMIT` under the `FOR UPDATE` row lock), so it is embedded as
  a pure function `Db → Db`; rollback paths return the input `Db` unchanged.
* The Redis counter store is an association list of keys to counters with an
  optional absolute expiry time, plus the current time in seconds; an expired
  entry behaves as absent, as in Redis.
* `getRedisClient` lazily connects; a failing connection attempt is the
  `connectFails` flag (the `await getRedisClient()` in `checkRateLimit` sits
  *outside* its `try`/`catch`); a failure of the already-connected client's
  commands (`incr`/`expire`/`ttl`) is the `opsFail` flag (inside the `try`).
* `Order.id` / `createdAt` (DB-generated) are not modelled; no claim uses them.
-/

/-- A row of the `products` table (`scripts/init-db.js`): `id`, `name`,
`stock INTEGER`, `price DECIMAL(10,2)`. Display metadata is irrelevant here. -/
structure Product where
  id : Int
  name : String
  stock : Int
  price : Rat
  deriving Repr, DecidableEq

/-- A row of the `orders` table: `user_id`, `product_id`, `quantity`,
`total_price`, `status` (the handler always inserts `'completed'`). -/
structure Order where
  userId : String
  productId : Int
  quantity : Int
  totalPrice : Rat
  status : String
  deriving Repr, DecidableEq

/-- The transactional record store: the `products` and `orders` tables. -/
structure Db where
  products : List Product
  orders : List Order
  deriving Repr, DecidableEq

/-- `order` object of the success response body (the DB-generated `id` and
`createdAt` fields are not modelled). -/
structure OrderInfo where
  productId : Int
  productName : String
  quantity : Int
  totalPrice : Rat
  remainingStock : Int
  deriving Repr, DecidableEq

/-- An HTTP response produced by the handler or the middleware: status code,
JSON body fields, and the rate-limit headers when present. -/
structure Response where
  status : Nat
  success : Bool
  message : Option String
  order : Option OrderInfo
  retryAfterHeader : Option Int
  limitHeader : Option Nat
  deriving Repr, DecidableEq

/-- `SELECT ... FROM products WHERE id = $1` (first matching row). -/
def Db.findProduct (db : Db) (pid : Int) : Option Product :=
  db.products.find? (fun p => p.id == pid)

/-- `UPDATE products SET stock = $1 WHERE id = $2`. -/
def Db.setStock (db : Db) (pid : Int) (newStock : Int) : Db :=
  { db with
    products := db.products.map (fun p => if p.id == pid then { p with stock := newStock } else p) }

/-- `INSERT INTO orders ...` appending one row. -/
def Db.insertOrder (db : Db) (o : Order) : Db :=
  { db with orders := db.orders ++ [o] }

/-- The `BEGIN ... COMMIT/ROLLBACK` block of `POST` in
`src/app/api/purchase/route.ts` (lines 27-88): lock and read the product row,
branch on existence and stock, decrement stock and insert the order on
success. Returns the response together with the database after the
transaction (unchanged on every rollback path). -/
def purchaseTx (db : Db) (pid : Int) (uid : String) (quantity : Int) : Response × Db :=
  match db.findProduct pid with
  | none =>
      ({ status := 404, success := false, message := some "Product not found",
         order := none, retryAfterHeader := none, limitHeader := none }, db)
  | some product =>
      if product.stock < quantity then
        ({ status := 200, success := false, message := some "Out of stock",
           order := none, retryAfterHeader := none, limitHeader := none }, db)
      else
        let newStock := product.stock - quantity
        let totalPrice := product.price * (quantity : Rat)
        let db' := (db.setStock pid newStock).insertOrder
          { userId := uid, productId := pid, quantity := quantity,
            totalPrice := totalPrice, status := "completed" }
        ({ status := 200, success := true, message := some "Purchase successful",
           order := some { productId := pid, productName := product.name,
                           quantity := quantity, totalPrice := totalPrice,
                           remainingStock := newStock },
           retryAfterHeader := none, limitHeader := none }, db')

/-- One Redis counter: the stored integer and its absolute expiry time in
seconds (`none` = no TTL, as for a key created by `INCR` alone). -/
structure CounterEntry where
  count : Nat
  expiresAt : Option Nat
  deriving Repr, DecidableEq

/-- The atomic counter store plus the simulated environment: the entries, the
current time in seconds, and the two failure switches (see module docstring). -/
structure RedisState where
  entries : List (String × CounterEntry)
  now : Nat
  connectFails : Bool
  opsFail : Bool
  deriving Repr, DecidableEq

/-- An entry is live when it has no TTL or its expiry is still in the future. -/
def CounterEntry.live (now : Nat) (e : CounterEntry) : Bool :=
  match e.expiresAt with
  | none => true
  | some t => now < t

/-- Look a key up; an expired entry behaves exactly as an absent one. -/
def RedisState.lookup (st : RedisState) (key : String) : Option CounterEntry :=
  match st.entries.find? (fun kv => kv.1 == key) with
  | some kv => if kv.2.live st.now then some kv.2 else none
  | none => none

/-- Store an entry under a key, replacing any previous binding. -/
def RedisState.set (st : RedisState) (key : String) (e : CounterEntry) : RedisState :=
  { st with entries := (key, e) :: st.entries.filter (fun kv => kv.1 != key) }

/-- Redis `INCR`: create the key at 1 (no TTL) when absent or expired,
otherwise increment; returns the post-increment value. -/
def RedisState.incr (st : RedisState) (key : String) : Nat × RedisState :=
  match st.lookup key with
  | some e => (e.count + 1, st.set key { e with count := e.count + 1 })
  | none => (1, st.set key { count := 1, expiresAt := none })

/-- Redis `EXPIRE key secs`: set the expiry of a live key. -/
def RedisState.expire (st : RedisState) (key : String) (secs : Nat) : RedisState :=
  match st.lookup key with
  | some e => st.set key { e with expiresAt := some (st.now + secs) }
  | none => st

/-- Redis `TTL`: `-2` for a missing/expired key, `-1` for a key without TTL,
otherwise the remaining seconds. -/
def RedisState.ttl (st : RedisState) (key : String) : Int :=
  match st.lookup key with
  | none => -2
  | some e =>
      match e.expiresAt with
      | none => -1
      | some t => (t : Int) - (st.now : Int)

/-- `Math.ceil(windowMs / 1000)` for a natural `windowMs`. -/
def ceilSeconds (windowMs : Nat) : Nat := (windowMs + 999) / 1000

/-- The value `checkRateLimit` resolves with: `{ allowed, retryAfter? }`. -/
structure RLResult where
  allowed : Bool
  retryAfter : Option Int
  deriving Repr, DecidableEq

/-- `checkRateLimit` of `src/lib/rateLimit.ts` (lines 10-38).
`await getRedisClient()` precedes the `try`, so a failed connection attempt
propagates as an exception (`Except.error`); a failing command inside the
`try` is caught and fails open. Otherwise: `INCR`, set the expiry when the
post-increment value is 1, deny with a retry hint when the count exceeds
`maxRequests`. -/
def checkRateLimit (st : RedisState) (maxRequests : Nat) (windowMs : Nat)
    (identifier : String) : Except Unit (RLResult × RedisState) :=
  if st.connectFails then Except.error ()
  else
    let key := "rate_limit:" ++ identifier
    if st.opsFail then Except.ok ({ allowed := true, retryAfter := none }, st)
    else
      let r := st.incr key
      let current := r.1
      let st2 := if current = 1 then r.2.expire key (ceilSeconds windowMs) else r.2
      if current > maxRequests then
        let t := st2.ttl key
        Except.ok ({ allowed := false,
                     retryAfter := some (if 0 < t then t else (ceilSeconds windowMs : Int)) }, st2)
      else
        Except.ok ({ allowed := true, retryAfter := none }, st2)

/-- A parsed inbound request: the JSON body fields of the purchase call, the
`userId` query parameter, and the two client-address headers the middleware
reads. `none` models an absent field/header. -/
structure Request where
  bodyProductId : Option Int
  bodyUserId : Option String
  bodyQuantity : Option Int
  queryUserId : Option String
  xForwardedFor : Option String
  xRealIp : Option String
  deriving Repr, DecidableEq

/-- JS `a || b` on an optional string: `""` (and absence) falls through. -/
def jsOrStr (a : Option String) (b : String) : String :=
  match a with
  | some s => if s = "" then b else s
  | none => b

/-- JS `a || b` on an optional number: `0` (and absence) falls through. -/
def jsOrInt (a : Option Int) (b : Int) : Int :=
  match a with
  | some v => if v = 0 then b else v
  | none => b

/-- JS truthiness of the `productId` body field (`!productId`). -/
def jsTruthyInt (a : Option Int) : Bool :=
  match a with
  | some v => v != 0
  | none => false

/-- JS truthiness of the `userId` body field (`!userId`). -/
def jsTruthyStr (a : Option String) : Bool :=
  match a with
  | some s => s != ""
  | none => false

/-- `userId || req.nextUrl.searchParams.get('userId') || 'anonymous'`. -/
def finalUserIdOf (userIdArg : Option String) (req : Request) : String :=
  jsOrStr userIdArg (jsOrStr req.queryUserId "anonymous")

/-- `req.headers.get('x-forwarded-for')?.split(',')[0] ||
req.headers.get('x-real-ip') || 'unknown'`. -/
def ipOf (req : Request) : String :=
  jsOrStr (req.xForwardedFor.map (fun s => (s.splitOn ",").headD ""))
    (jsOrStr req.xRealIp "unknown")

/-- `rateLimitMiddleware` of `src/lib/rateLimit.ts` (lines 40-97): resolve the
user and IP identifiers, check the user tier with the caller-supplied limits,
on denial return the 429 response immediately; otherwise check the IP tier
with the fixed `(10, 60000)` budget; `none` means no violation. Exceptions of
`checkRateLimit` propagate. -/
def rateLimitMiddleware (req : Request) (maxRequests : Nat) (windowMs : Nat)
    (userIdArg : Option String) (st : RedisState) :
    Except Unit (Option Response × RedisState) :=
  let finalUserId := finalUserIdOf userIdArg req
  let ip := ipOf req
  match checkRateLimit st maxRequests windowMs ("user:" ++ finalUserId) with
  | Except.error e => Except.error e
  | Except.ok (userLimit, st1) =>
      if userLimit.allowed = false then
        Except.ok (some { status := 429, success := false,
                          message := some "Rate limit exceeded for user", order := none,
                          retryAfterHeader := some (jsOrInt userLimit.retryAfter 60),
                          limitHeader := some maxRequests }, st1)
      else
        match checkRateLimit st1 10 60000 ("ip:" ++ ip) with
        | Except.error e => Except.error e
        | Except.ok (ipLimit, st2) =>
            if ipLimit.allowed = false then
              Except.ok (some { status := 429, success := false,
                                message := some "Rate limit exceeded for IP", order := none,
                                retryAfterHeader := some (jsOrInt ipLimit.retryAfter 60),
                                limitHeader := some 10 }, st2)
            else
              Except.ok (none, st2)

/-- The 500 response of the outer `catch` of `POST`. -/
def internalErrorResponse : Response :=
  { status := 500, success := false, message := some "Internal server error",
    order := none, retryAfterHeader := none, limitHeader := none }

/-- `POST` of `src/app/api/purchase/route.ts` on an already-parsed body:
destructure the body with `quantity = 1` as default, run the two-tier rate
limiter (passing the body's `userId`), then validate `!productId || !userId`,
then run the purchase transaction. Any uncaught exception becomes the 500
response with the state unchanged by the failed step. -/
def POST (req : Request) (db : Db) (redis : RedisState) : Response × Db × RedisState :=
  let quantity := req.bodyQuantity.getD 1
  match rateLimitMiddleware req 5 60000 req.bodyUserId redis with
  | Except.error _ => (internalErrorResponse, db, redis)
  | Except.ok (some resp, redis') => (resp, db, redis')
  | Except.ok (none, redis') =>
      if jsTruthyInt req.bodyProductId = false ∨ jsTruthyStr req.bodyUserId = false then
        ({ status := 400, success := false, message := some "Missing productId or userId",
           order := none, retryAfterHeader := none, limitHeader := none }, db, redis')
      else
        let pid := req.bodyProductId.getD 0
        let uid := (req.bodyUserId.getD "")
        let r := purchaseTx db pid uid quantity
        (r.1, r.2, redis')

/-!
## Interleaving model of the row-locked purchase transaction

`POST` runs `SELECT ... FOR UPDATE`, which acquires an exclusive row lock and
reads the stock atomically; the later `UPDATE`/`INSERT`/`COMMIT` happen while
the lock is still held, and the lock is released at `COMMIT`/`ROLLBACK`.
Concurrent purchase attempts against one product are therefore modelled as
transactions with two visible steps:
* `acquire`: possible only while no other transaction holds the row lock;
  reads the current stock (the `FOR UPDATE` read);
* `commitOrAbort`: possible only for the lock holder; decides on the read
  value exactly as the handler (`currentStock < quantity` aborts, otherwise
  the stock is written and the order committed) and releases the lock.
A scheduler is an arbitrary list of transaction indices; an index whose
transaction has no enabled step is a stutter. `log` records the finished
attempts in commit order together with their success flag.
-/

namespace Conc

/-- Phase of one purchase transaction: not yet started, holding the row lock
with the stock value read by `FOR UPDATE`, or finished with its outcome. -/
inductive TxPhase where
  | notStarted
  | locked (readStock : Nat)
  | txDone (success : Bool)
  deriving Repr, DecidableEq

/-- Global state: the product's stock, the row-lock holder, each
transaction's phase, and the commit-ordered log `(txn, quantity, success)`. -/
structure ConcState where
  stock : Nat
  lockHolder : Option Nat
  phase : Nat → TxPhase
  log : List (Nat × Nat × Bool)

/-- Point update of the phase map. -/
def updPhase (f : Nat → TxPhase) (i : Nat) (ph : TxPhase) : Nat → TxPhase :=
  fun j => if j = i then ph else f j

/-- One scheduler step: let transaction `i` (with quantity `qs[i]`) take its
next enabled action, or stutter. The decision in the commit step mirrors the
handler: abort exactly when the read stock is `< quantity`. -/
def step (qs : List Nat) (s : ConcState) (i : Nat) : ConcState :=
  match qs.get? i with
  | none => s
  | some q =>
      match s.phase i with
      | TxPhase.notStarted =>
          if s.lockHolder = none then
            { s with lockHolder := some i,
                     phase := updPhase s.phase i (TxPhase.locked s.stock) }
          else s
      | TxPhase.locked r =>
          if s.lockHolder = some i then
            if q ≤ r then
              { stock := r - q, lockHolder := none,
                phase := updPhase s.phase i (TxPhase.txDone true),
                log := s.log ++ [(i, q, true)] }
            else
              { stock := s.stock, lockHolder := none,
                phase := updPhase s.phase i (TxPhase.txDone false),
                log := s.log ++ [(i, q, false)] }
          else s
      | TxPhase.txDone _ => s

/-- Initial state: stock `S`, lock free, all transactions unstarted. -/
def initState (S : Nat) : ConcState :=
  { stock := S, lockHolder := none, phase := fun _ => TxPhase.notStarted, log := [] }

/-- Run a schedule. -/
def run (qs : List Nat) (S : Nat) (sched : List Nat) : ConcState :=
  sched.foldl (step qs) (initState S)

/-- Purely serial reference semantics: apply the attempts one at a time in
the given order; each succeeds exactly when its quantity fits the current
stock. Returns the final stock and the outcome of each attempt. -/
def serialExec : Nat → List Nat → Nat × List Bool
  | S, [] => (S, [])
  | S, q :: rest =>
      if q ≤ S then
        ((serialExec (S - q) rest).1, true :: (serialExec (S - q) rest).2)
      else
        ((serialExec S rest).1, false :: (serialExec S rest).2)

/-- Quantities of the logged attempts, in commit order. -/
def logQuantities (log : List (Nat × Nat × Bool)) : List Nat :=
  log.map (fun e => e.2.1)

/-- Outcomes of the logged attempts, in commit order. -/
def logFlags (log : List (Nat × Nat × Bool)) : List Bool :=
  log.map (fun e => e.2.2)

/-- Total quantity sold: sum of the quantities of the successful attempts. -/
def soldSum (log : List (Nat × Nat × Bool)) : Nat :=
  ((log.filter (fun e => e.2.2)).map (fun e => e.2.1)).sum

/-- The inductive invariant: (1) a locked transaction is the lock holder and
its read value is the current stock (nobody wrote behind its back); (2) the
stock and the logged outcomes coincide with the serial execution of the
logged quantities in commit order; (3) accounting: stock plus sold equals the
initial stock; (4) every logged entry belongs to a finished transaction and
carries that transaction's quantity; (5) no transaction commits twice. -/
def Inv (qs : List Nat) (S : Nat) (s : ConcState) : Prop :=
  (∀ i r, s.phase i = TxPhase.locked r → s.lockHolder = some i ∧ r = s.stock) ∧
  s.stock = (serialExec S (logQuantities s.log)).1 ∧
  logFlags s.log = (serialExec S (logQuantities s.log)).2 ∧
  s.stock + soldSum s.log = S ∧
  (∀ e ∈ s.log, qs.get? e.1 = some e.2.1 ∧ s.phase e.1 = TxPhase.txDone e.2.2) ∧
  (s.log.map Prod.fst).Nodup

end Conc

/-!
## Derived observation functions and iteration helpers
-/

/-- The stock the read path reports for a product (`SELECT stock ... WHERE id = $1`). -/
def stockOf (db : Db) (pid : Int) : Option Int :=
  (db.findProduct pid).map (fun p => p.stock)

/-- Sum of the quantities of all orders committed against a product. -/
def ordersSum (db : Db) (pid : Int) : Int :=
  ((db.orders.filter (fun o => o.productId == pid)).map (fun o => o.quantity)).sum

/-- Apply a list of purchase transactions `(userId, quantity)` for one
product one at a time (the serial order the row lock enforces). -/
def runPurchases (db : Db) (pid : Int) : List (String × Int) → Db
  | [] => db
  | e :: rest => runPurchases (purchaseTx db pid e.1 e.2).2 pid rest

/-- The live counter value for a key (0 when absent or expired). -/
def countAt (st : RedisState) (key : String) : Nat :=
  match st.lookup key with
  | some e => e.count
  | none => 0

/-- The raw stored entry for a key (expiry included), ignoring liveness. -/
def findEntry (st : RedisState) (key : String) : Option CounterEntry :=
  match st.entries.find? (fun kv => kv.1 == key) with
  | some kv => some kv.2
  | none => none

/-- Iterate `checkRateLimit` for one identifier at the given call times; the
clock is set to each call's time before the call, and the counter store is
threaded through. -/
def checkCalls (maxRequests windowMs : Nat) (identifier : String) :
    RedisState → List Nat → List (Except Unit RLResult) × RedisState
  | st, [] => ([], st)
  | st, t :: ts =>
      match checkRateLimit { st with now := t } maxRequests windowMs identifier with
      | Except.error e =>
          ((Except.error e) :: (checkCalls maxRequests windowMs identifier { st with now := t } ts).1,
           (checkCalls maxRequests windowMs identifier { st with now := t } ts).2)
      | Except.ok r =>
          ((Except.ok r.1) :: (checkCalls maxRequests windowMs identifier r.2 ts).1,
           (checkCalls maxRequests windowMs identifier r.2 ts).2)

/-- Iterate `rateLimitMiddleware` over a list of requests (each with the
`userId` argument the handler would pass), threading the counter store. -/
def mwFold (maxRequests windowMs : Nat) :
    RedisState → List (Request × Option String) → List (Except Unit (Option Response)) × RedisState
  | st, [] => ([], st)
  | st, e :: rest =>
      match rateLimitMiddleware e.1 maxRequests windowMs e.2 st with
      | Except.error err =>
          ((Except.error err) :: (mwFold maxRequests windowMs st rest).1,
           (mwFold maxRequests windowMs st rest).2)
      | Except.ok r =>
          ((Except.ok r.1) :: (mwFold maxRequests windowMs r.2 rest).1,
           (mwFold maxRequests windowMs r.2 rest).2)

/-- The Redis key of the user-tier counter a request is charged against. -/
def userKey (req : Request) : String :=
  "rate_limit:" ++ ("user:" ++ finalUserIdOf req.bodyUserId req)

/-- The Redis key of the IP-tier counter a request is charged against. -/
def ipKey (req : Request) : String :=
  "rate_limit:" ++ ("ip:" ++ ipOf req)

/-- Whether the user-tier check of `POST` allows the request. -/
def userTierAllowed (req : Request) (redis : RedisState) : Bool :=
  match checkRateLimit redis 5 60000 ("user:" ++ finalUserIdOf req.bodyUserId req) with
  | Except.ok r => r.1.allowed
  | Except.error _ => false

/-- Whether the IP-tier check of `POST` (run on the state left by the
user-tier check) allows the request. -/
def ipTierAllowed (req : Request) (redis : RedisState) : Bool :=
  match checkRateLimit redis 5 60000 ("user:" ++ finalUserIdOf req.bodyUserId req) with
  | Except.ok r =>
      match checkRateLimit r.2 10 60000 ("ip:" ++ ipOf req) with
      | Except.ok r' => r'.1.allowed
      | Except.error _ => false
  | Except.error _ => false

/-!
## Concrete sample inputs (used by witnesses and counterexamples)
-/

/-- One product, id 1, stock 5, price 10. -/
def sampleDb : Db :=
  { products := [{ id := 1, name := "Flash Widget", stock := 5, price := (10 : Rat) }],
    orders := [] }

/-- Empty counter store, clock 0, no simulated failures. -/
def redisFresh : RedisState :=
  { entries := [], now := 0, connectFails := false, opsFail := false }

/-- Counter store whose connection attempt fails. -/
def redisDown : RedisState :=
  { entries := [], now := 0, connectFails := true, opsFail := false }

/-- Connected counter store whose commands fail. -/
def redisOpsFail : RedisState :=
  { entries := [], now := 0, connectFails := false, opsFail := true }

/-- Well-formed purchase request: product 1, user alice, quantity 2. -/
def reqFull : Request :=
  { bodyProductId := some 1, bodyUserId := some "alice", bodyQuantity := some 2,
    queryUserId := none, xForwardedFor := none, xRealIp := none }

/-- Request with the non-positive quantity 0 (otherwise well-formed). -/
def reqQtyZero : Request :=
  { bodyProductId := some 1, bodyUserId := some "alice", bodyQuantity := some 0,
    queryUserId := none, xForwardedFor := none, xRealIp := none }

/-- Malformed request: no `productId`, no `userId` anywhere. -/
def reqAnon : Request :=
  { bodyProductId := none, bodyUserId := none, bodyQuantity := none,
    queryUserId := none, xForwardedFor := none, xRealIp := none }

/-- Well-formed request for a given user, all from IP `9.9.9.9` (carried in
the `x-real-ip` header). -/
def mkUserReq (u : String) : Request :=
  { bodyProductId := some 1, bodyUserId := some u, bodyQuantity := some 1,
    queryUserId := none, xForwardedFor := none, xRealIp := some "9.9.9.9" }

/-!
## Theorems
-/

/-- Orders are untouched by a stock update. -/
lemma orders_setStock (db : Db) (pid v : Int) : (db.setStock pid v).orders = db.orders := rfl

/-- Products are untouched by an order insert. -/
lemma products_insertOrder (db : Db) (o : Order) :
    (db.insertOrder o).products = db.products := rfl

/-- `find?` after a stock update of the matching rows. -/
lemma find?_map_setStock (l : List Product) (pid v : Int) :
    (l.map (fun p => if p.id == pid then { p with stock := v } else p)).find?
        (fun p => p.id == pid)
      = (l.find? (fun p => p.id == pid)).map (fun p => { p with stock := v }) := by
  induction l with
  | nil => rfl
  | cons p l ih =>
      by_cases h : p.id = pid
      · simp [List.find?_cons, h]
      · rw [List.map_cons, if_neg (by simp [h])]
        rw [List.find?_cons, List.find?_cons]
        have hb : (p.id == pid) = false := by simp [h]
        rw [hb]
        exact ih

/-- Looking a product up after updating its stock. -/
lemma findProduct_setStock (db : Db) (pid v : Int) :
    (db.setStock pid v).findProduct pid
      = (db.findProduct pid).map (fun p => { p with stock := v }) := by
  unfold Db.setStock Db.findProduct
  exact find?_map_setStock db.products pid v

/-- Inserting an order does not change product lookups. -/
lemma findProduct_insertOrder (db : Db) (o : Order) (pid : Int) :
    (db.insertOrder o).findProduct pid = db.findProduct pid := rfl

/-- C4: against an existing product with stock strictly below the requested
quantity, and with the rate limiter passing, the handler answers
`{ success: false, message: "Out of stock" }` with status 200 (the
success-path status code), leaves the database (stock and orders) unchanged,
and only the rate-limit counters move. -/
theorem out_of_stock_business_outcome (req : Request) (db : Db)
    (redis redis₁ : RedisState) (product : Product)
    (hmw : rateLimitMiddleware req 5 60000 req.bodyUserId redis = Except.ok (none, redis₁))
    (hpid : jsTruthyInt req.bodyProductId = true)
    (huid : jsTruthyStr req.bodyUserId = true)
    (hfind : db.findProduct (req.bodyProductId.getD 0) = some product)
    (hlt : product.stock < req.bodyQuantity.getD 1) :
    POST req db redis =
      ({ status := 200, success := false, message := some "Out of stock",
         order := none, retryAfterHeader := none, limitHeader := none }, db, redis₁) := by
  simp only [POST, hmw]
  rw [if_neg (by simp [hpid, huid])]
  simp only [purchaseTx, hfind, if_pos hlt]

/-- Witness for C4 at a concrete input (stock 5, quantity 7; commands of the
counter store failing open so the rate limiter passes without state change). -/
theorem out_of_stock_business_outcome_witness :
    POST { bodyProductId := some 1, bodyUserId := some "alice", bodyQuantity := some 7,
           queryUserId := none, xForwardedFor := none, xRealIp := none }
        sampleDb redisOpsFail =
      ({ status := 200, success := false, message := some "Out of stock",
         order := none, retryAfterHeader := none, limitHeader := none },
       sampleDb, redisOpsFail) :=
  out_of_stock_business_outcome _ _ _ _
    { id := 1, name := "Flash Widget", stock := 5, price := (10 : Rat) }
    (by rfl) (by rfl) (by rfl) (by rfl) (by decide)

/-- C5: a purchase request whose `productId` matches no product, with the
rate limiter passing, yields the 404 not-found response and leaves the
database unchanged (no order, no stock change). -/
theorem missing_product_not_found (req : Request) (db : Db)
    (redis redis₁ : RedisState)
    (hmw : rateLimitMiddleware req 5 60000 req.bodyUserId redis = Except.ok (none, redis₁))
    (hpid : jsTruthyInt req.bodyProductId = true)
    (huid : jsTruthyStr req.bodyUserId = true)
    (hfind : db.findProduct (req.bodyProductId.getD 0) = none) :
    POST req db redis =
      ({ status := 404, success := false, message := some "Product not found",
         order := none, retryAfterHeader := none, limitHeader := none }, db, redis₁) := by
  simp only [POST, hmw]
  rw [if_neg (by simp [hpid, huid])]
  simp only [purchaseTx, hfind]

/-- Witness for C5 at a concrete input (product 42 does not exist). -/
theorem missing_product_not_found_witness :
    POST { bodyProductId := some 42, bodyUserId := some "alice", bodyQuantity := none,
           queryUserId := none, xForwardedFor := none, xRealIp := none }
        sampleDb redisOpsFail =
      ({ status := 404, success := false, message := some "Product not found",
         order := none, retryAfterHeader := none, limitHeader := none },
       sampleDb, redisOpsFail) :=
  missing_product_not_found _ _ _ _ (by rfl) (by rfl) (by rfl) (by rfl)

/-- C6 counterexample: the handler does not validate `quantity`. The concrete
request `{ productId: 1, userId: "alice", quantity: 0 }` — whose quantity is
not a positive integer — is not rejected with the bad-request status: it
reaches the transaction and commits an order of quantity 0 (status 200). -/
theorem quantity_not_validated_cex :
    (POST reqQtyZero sampleDb redisFresh).1.status = 200 ∧
    (POST reqQtyZero sampleDb redisFresh).1.success = true ∧
    (POST reqQtyZero sampleDb redisFresh).2.1.orders.length = 1 := by
  refine ⟨rfl, rfl, rfl⟩

/-- C6 amended: provided the rate limiter (which runs first) allows the
request, a request with missing/falsy `productId` or missing/empty `userId`
is rejected with the bad-request status 400 before any transaction is
started: the database is unchanged (no stock change, no order). A quantity
that is not a positive integer is not validated (see the counterexample). -/
theorem malformed_input_bad_request (req : Request) (db : Db)
    (redis redis₁ : RedisState)
    (hmw : rateLimitMiddleware req 5 60000 req.bodyUserId redis = Except.ok (none, redis₁))
    (hmal : jsTruthyInt req.bodyProductId = false ∨ jsTruthyStr req.bodyUserId = false) :
    POST req db redis =
      ({ status := 400, success := false, message := some "Missing productId or userId",
         order := none, retryAfterHeader := none, limitHeader := none }, db, redis₁) := by
  simp only [POST, hmw]
  rw [if_pos hmal]

/-- Witness for the amended C6: request with no `productId`. -/
theorem malformed_input_bad_request_witness :
    POST { bodyProductId := none, bodyUserId := some "alice", bodyQuantity := some 1,
           queryUserId := none, xForwardedFor := none, xRealIp := none }
        sampleDb redisOpsFail =
      ({ status := 400, success := false, message := some "Missing productId or userId",
         order := none, retryAfterHeader := none, limitHeader := none },
       sampleDb, redisOpsFail) :=
  malformed_input_bad_request _ _ _ _ (by rfl) (Or.inl (by rfl))

/-- C8: when the counter store is unreachable (the lazy connection attempt of
`getRedisClient` fails), the rate-limit check does *not* fail open:
`await getRedisClient()` sits outside the `try`/`catch` of `checkRateLimit`,
the exception propagates through `rateLimitMiddleware` into the outer catch
of `POST`, and every purchase request fails with the 500 internal-error
response — for any request and any database. -/
theorem redis_connect_failure_yields_500 (req : Request) (db : Db) (redis : RedisState)
    (hconn : redis.connectFails = true) :
    POST req db redis = (internalErrorResponse, db, redis) := by
  simp only [POST, rateLimitMiddleware, checkRateLimit, hconn, if_true]

/-- Witness for C8 at a concrete input: with the connection failing, the
well-formed request for an in-stock product is answered 500, not served and
not fail-open-allowed. -/
theorem redis_connect_failure_yields_500_witness :
    POST reqFull sampleDb redisDown = (internalErrorResponse, sampleDb, redisDown) :=
  redis_connect_failure_yields_500 reqFull sampleDb redisDown (by rfl)

/-- Companion fact for C8: the half of the fail-open policy that the code
does implement. When the client is connected but its commands fail (the
failure lands inside the `try`), the check returns `allowed = true` with the
store untouched, for any identifier and limits — so the middleware passes
the request through. -/
theorem ops_failure_fails_open (st : RedisState) (maxRequests windowMs : Nat)
    (identifier : String)
    (hconn : st.connectFails = false) (hops : st.opsFail = true) :
    checkRateLimit st maxRequests windowMs identifier =
      Except.ok ({ allowed := true, retryAfter := none }, st) := by
  simp only [checkRateLimit, hconn, hops, Bool.false_eq_true, if_false, if_true]

/-- Witness for the companion fact. -/
theorem ops_failure_fails_open_witness :
    checkRateLimit redisOpsFail 5 60000 "user:alice" =
      Except.ok ({ allowed := true, retryAfter := none }, redisOpsFail) :=
  ops_failure_fails_open redisOpsFail 5 60000 "user:alice" (by rfl) (by rfl)

/-- `ordersSum` after inserting an order for the same product. -/
lemma ordersSum_insertOrder (db : Db) (o : Order) (pid : Int) (h : o.productId = pid) :
    ordersSum (db.insertOrder o) pid = ordersSum db pid + o.quantity := by
  simp [ordersSum, Db.insertOrder, List.filter_append, h]

/-- `ordersSum` is untouched by a stock update. -/
lemma ordersSum_setStock (db : Db) (pid v : Int) :
    ordersSum (db.setStock pid v) pid = ordersSum db pid := rfl

/-- The inductive invariant behind C2: the product is present, its stock is
non-negative, and stock plus everything sold so far equals `S`. -/
def DbInv (pid : Int) (S : Int) (db : Db) : Prop :=
  ∃ p, db.findProduct pid = some p ∧ 0 ≤ p.stock ∧ p.stock + ordersSum db pid = S

/-- One purchase transaction preserves the stock invariant (whatever the
requested quantity: an aborted attempt changes nothing, a committed one moves
exactly its quantity from stock to orders and cannot drive stock negative,
because the handler rejects `stock < quantity`). -/
lemma purchaseTx_preserves_DbInv (db : Db) (pid : Int) (u : String) (q : Int) (S : Int)
    (h : DbInv pid S db) : DbInv pid S (purchaseTx db pid u q).2 := by
  obtain ⟨p, hf, h0, hsum⟩ := h
  by_cases hlt : p.stock < q
  · simp only [purchaseTx, hf, if_pos hlt]
    exact ⟨p, hf, h0, hsum⟩
  · simp only [purchaseTx, hf, if_neg hlt]
    refine ⟨{ p with stock := p.stock - q }, ?_, ?_, ?_⟩
    · rw [findProduct_insertOrder, findProduct_setStock, hf]
      rfl
    · simp only []
      omega
    · rw [ordersSum_insertOrder _ _ _ rfl, ordersSum_setStock]
      simp only []
      omega

/-- Running any list of purchase attempts preserves the stock invariant. -/
lemma runPurchases_preserves_DbInv (pid : Int) (S : Int) (ops : List (String × Int)) :
    ∀ db : Db, DbInv pid S db → DbInv pid S (runPurchases db pid ops) := by
  induction ops with
  | nil => intro db h; exact h
  | cons e rest ih =>
      intro db h
      exact ih _ (purchaseTx_preserves_DbInv db pid e.1 e.2 S h)

/-- C2: applying purchase operations one at a time to a product with initial
stock `S ≥ 0` and no prior orders, after every prefix of the operations the
stock is exactly `S` minus the total quantity of the committed orders and is
non-negative; the next operation succeeds exactly when its quantity fits the
stock at its turn. -/
theorem sequential_purchase_stock_invariant (db : Db) (pid : Int) (S : Int) (p0 : Product)
    (ops : List (String × Int))
    (hf : db.findProduct pid = some p0) (hstock : p0.stock = S) (hS : 0 ≤ S)
    (h0 : db.orders = [])
    (_hq : ∀ e ∈ ops, 1 ≤ e.2) :
    ∀ l₁ l₂, ops = l₁ ++ l₂ →
      stockOf (runPurchases db pid l₁) pid
          = some (S - ordersSum (runPurchases db pid l₁) pid) ∧
      0 ≤ S - ordersSum (runPurchases db pid l₁) pid ∧
      ∀ u q l₂', l₂ = (u, q) :: l₂' →
        ((purchaseTx (runPurchases db pid l₁) pid u q).1.success = true
          ↔ q ≤ S - ordersSum (runPurchases db pid l₁) pid) := by
  intro l₁ l₂ _
  have hinv0 : DbInv pid S db := by
    refine ⟨p0, hf, by omega, ?_⟩
    have : ordersSum db pid = 0 := by simp [ordersSum, h0]
    omega
  obtain ⟨p', hf', h0', hsum'⟩ := runPurchases_preserves_DbInv pid S l₁ db hinv0
  have hps : p'.stock = S - ordersSum (runPurchases db pid l₁) pid := by omega
  refine ⟨?_, by omega, ?_⟩
  · rw [stockOf, hf']
    simp [hps]
  · intro u q l₂' _
    by_cases hlt : p'.stock < q
    · simp only [purchaseTx, hf', if_pos hlt]
      constructor
      · intro hfalse; cases hfalse
      · intro hle; omega
    · simp only [purchaseTx, hf', if_neg hlt]
      constructor
      · intro _; omega
      · intro _; trivial

/-- Witness for C2: product 1 starting at stock 5, three attempts of
quantity 2; after the first two (which commit), stock is
`5 - ordersSum = 1`. -/
theorem sequential_purchase_stock_invariant_witness :
    stockOf (runPurchases sampleDb 1 [("u", 2), ("v", 2)]) 1
      = some (5 - ordersSum (runPurchases sampleDb 1 [("u", 2), ("v", 2)]) 1) :=
  (sequential_purchase_stock_invariant sampleDb 1 5
    { id := 1, name := "Flash Widget", stock := 5, price := (10 : Rat) }
    [("u", 2), ("v", 2), ("w", 2)]
    (by rfl) (by rfl) (by decide) (by rfl) (by decide)
    [("u", 2), ("v", 2)] [("w", 2)] rfl).1

/-- Any response the middleware intercepts with is a 429 carrying
`success = false`; a successful response can only come from the purchase
transaction. -/
lemma middleware_some_response (req : Request) (maxR w : Nat) (uid : Option String)
    (st : RedisState) (r : Response) (st' : RedisState)
    (h : rateLimitMiddleware req maxR w uid st = Except.ok (some r, st')) :
    r.success = false ∧ r.status = 429 := by
  rcases h1 : checkRateLimit st maxR w ("user:" ++ finalUserIdOf uid req) with e | ⟨ur, st1⟩
  · simp only [rateLimitMiddleware, h1] at h
    exact Except.noConfusion h
  · simp only [rateLimitMiddleware, h1] at h
    by_cases ha : ur.allowed = false
    · rw [if_pos ha] at h
      simp only [Except.ok.injEq, Prod.mk.injEq, Option.some.injEq] at h
      obtain ⟨hr, -⟩ := h
      subst hr
      exact ⟨rfl, rfl⟩
    · rw [if_neg ha] at h
      rcases h2 : checkRateLimit st1 10 60000 ("ip:" ++ ipOf req) with e | ⟨ir, st2⟩
      · simp only [h2] at h
        exact Except.noConfusion h
      · simp only [h2] at h
        by_cases hb : ir.allowed = false
        · rw [if_pos hb] at h
          simp only [Except.ok.injEq, Prod.mk.injEq, Option.some.injEq] at h
          obtain ⟨hr, -⟩ := h
          subst hr
          exact ⟨rfl, rfl⟩
        · rw [if_neg hb] at h
          simp at h

/-- C3: whenever the handler reports a successful purchase, the requested
product exists, its stock covered the quantity (1 when the request omitted
it), exactly one completed order with `totalPrice = quantity × price` was
appended, the product's stock was decremented by exactly that quantity in the
same transaction, and the response's `remainingStock` is the pre-purchase
stock minus the quantity. -/
theorem successful_purchase_effects (req : Request) (db : Db) (redis : RedisState)
    (resp : Response) (db' : Db) (redis' : RedisState)
    (h : POST req db redis = (resp, db', redis'))
    (hs : resp.success = true) :
    (db.findProduct (req.bodyProductId.getD 0)).isSome = true ∧
    ∀ product, db.findProduct (req.bodyProductId.getD 0) = some product →
      req.bodyQuantity.getD 1 ≤ product.stock ∧
      db'.orders = db.orders ++
        [{ userId := req.bodyUserId.getD "", productId := req.bodyProductId.getD 0,
           quantity := req.bodyQuantity.getD 1,
           totalPrice := (req.bodyQuantity.getD 1 : Rat) * product.price,
           status := "completed" }] ∧
      stockOf db' (req.bodyProductId.getD 0)
          = some (product.stock - req.bodyQuantity.getD 1) ∧
      resp.order = some { productId := req.bodyProductId.getD 0,
                          productName := product.name,
                          quantity := req.bodyQuantity.getD 1,
                          totalPrice := (req.bodyQuantity.getD 1 : Rat) * product.price,
                          remainingStock := product.stock - req.bodyQuantity.getD 1 } := by
  rcases hmw : rateLimitMiddleware req 5 60000 req.bodyUserId redis with e | ⟨o, redis₁⟩
  · simp only [POST, hmw, Prod.mk.injEq] at h
    obtain ⟨h1, -, -⟩ := h
    rw [← h1] at hs
    simp [internalErrorResponse] at hs
  · rcases o with _ | r
    · simp only [POST, hmw] at h
      by_cases hm : jsTruthyInt req.bodyProductId = false ∨ jsTruthyStr req.bodyUserId = false
      · rw [if_pos hm] at h
        simp only [Prod.mk.injEq] at h
        obtain ⟨h1, -, -⟩ := h
        rw [← h1] at hs
        simp at hs
      · rw [if_neg hm] at h
        rcases hfind : db.findProduct (req.bodyProductId.getD 0) with _ | product
        · simp only [purchaseTx, hfind, Prod.mk.injEq] at h
          obtain ⟨h1, -, -⟩ := h
          rw [← h1] at hs
          simp at hs
        · simp only [purchaseTx, hfind] at h
          by_cases hlt : product.stock < req.bodyQuantity.getD 1
          · rw [if_pos hlt] at h
            simp only [Prod.mk.injEq] at h
            obtain ⟨h1, -, -⟩ := h
            rw [← h1] at hs
            simp at hs
          · rw [if_neg hlt] at h
            simp only [Prod.mk.injEq] at h
            obtain ⟨h1, h2, -⟩ := h
            refine ⟨rfl, ?_⟩
            intro product' hp'
            rw [Option.some.injEq] at hp'
            subst hp'
            refine ⟨by omega, ?_, ?_, ?_⟩
            · rw [← h2]
              simp [Db.insertOrder, Db.setStock, mul_comm]
            · rw [← h2]
              rw [stockOf, findProduct_insertOrder, findProduct_setStock, hfind]
              rfl
            · rw [← h1]
              simp [mul_comm]
    · simp only [POST, hmw, Prod.mk.injEq] at h
      obtain ⟨h1, -, -⟩ := h
      obtain ⟨hrs, -⟩ := middleware_some_response req 5 60000 req.bodyUserId redis r redis₁ hmw
      rw [← h1] at hs
      rw [hs] at hrs
      cases hrs

/-- Witness for C3 at a concrete input: user alice buys 2 of product 1
(stock 5, price 10); the handler's answer is successful and the theorem's
conclusions follow for it. -/
theorem successful_purchase_effects_witness :
    (sampleDb.findProduct ((reqFull.bodyProductId).getD 0)).isSome = true :=
  (successful_purchase_effects reqFull sampleDb redisFresh
    (POST reqFull sampleDb redisFresh).1
    (POST reqFull sampleDb redisFresh).2.1
    (POST reqFull sampleDb redisFresh).2.2
    rfl (by rfl)).1

/-- Counter store in which user `bob` has already used his 5-request budget. -/
def stUserFull : RedisState :=
  { entries := [("rate_limit:user:bob", { count := 5, expiresAt := none })],
    now := 0, connectFails := false, opsFail := false }

/-- Eleven requests by eleven distinct users, all from IP `9.9.9.9`. -/
def elevenUserReqs : List (Request × Option String) :=
  ["u1", "u2", "u3", "u4", "u5", "u6", "u7", "u8", "u9", "u10", "u11"].map
    (fun u => (mkUserReq u, some u))

/-- C9 counterexample: with the caller-supplied user budget `maxRequests = 5`
(the purchase handler's value), eleven same-IP requests by distinct users are
all passed by the user tier; the first ten also pass the IP tier and the
eleventh is denied by it, its response advertising the IP-tier limit 10. So
the fixed IP budget is 10, and 10 is not smaller than the user tier's 5 —
refuting the claim that the IP tier's `maxRequests` is smaller. -/
theorem ip_budget_not_smaller_cex :
    (mwFold 5 60000 redisFresh elevenUserReqs).1.take 10
        = List.replicate 10 (Except.ok none) ∧
    (mwFold 5 60000 redisFresh elevenUserReqs).1.getLast?
        = some (Except.ok (some
            { status := 429, success := false,
              message := some "Rate limit exceeded for IP", order := none,
              retryAfterHeader := some 60, limitHeader := some 10 })) ∧
    ¬ (10 < 5) := by
  refine ⟨by rfl, by rfl, by decide⟩

/-- C9 amended: the middleware checks the user tier first against the
caller-supplied limits; on user-tier denial it short-circuits with the user
tier's `retryAfterSeconds` and limit, leaving the counter store exactly as
the user-tier check left it (the IP counter is not incremented); only if the
user tier allows is the IP tier checked, against the fixed budget
`(maxRequests := 10, windowMs := 60000)` — which is *larger*, not smaller,
than the purchase handler's user budget of 5. -/
theorem two_tier_order_and_budgets (req : Request) (maxR w : Nat) (uid : Option String)
    (st st1 : RedisState) (userRes : RLResult)
    (hu : checkRateLimit st maxR w ("user:" ++ finalUserIdOf uid req)
            = Except.ok (userRes, st1)) :
    (userRes.allowed = false →
      rateLimitMiddleware req maxR w uid st =
        Except.ok (some
          { status := 429, success := false,
            message := some "Rate limit exceeded for user", order := none,
            retryAfterHeader := some (jsOrInt userRes.retryAfter 60),
            limitHeader := some maxR }, st1)) ∧
    (userRes.allowed = true →
      ∀ ipRes st2,
        checkRateLimit st1 10 60000 ("ip:" ++ ipOf req) = Except.ok (ipRes, st2) →
          (ipRes.allowed = false →
            rateLimitMiddleware req maxR w uid st =
              Except.ok (some
                { status := 429, success := false,
                  message := some "Rate limit exceeded for IP", order := none,
                  retryAfterHeader := some (jsOrInt ipRes.retryAfter 60),
                  limitHeader := some 10 }, st2)) ∧
          (ipRes.allowed = true →
            rateLimitMiddleware req maxR w uid st = Except.ok (none, st2))) := by
  constructor
  · intro ha
    simp only [rateLimitMiddleware, hu, ha, if_true]
  · intro ha ipRes st2 hip
    constructor
    · intro hb
      simp [rateLimitMiddleware, hu, ha, hip, hb]
    · intro hb
      simp [rateLimitMiddleware, hu, ha, hip, hb]

/-- Witness for the amended C9: user `bob` over budget is denied by the user
tier alone; the counter store afterwards holds only bob's counter at 6 — the
IP counter was never created. -/
theorem two_tier_order_and_budgets_witness :
    rateLimitMiddleware (mkUserReq "bob") 5 60000 (some "bob") stUserFull =
      Except.ok (some
        { status := 429, success := false,
          message := some "Rate limit exceeded for user", order := none,
          retryAfterHeader := some 60, limitHeader := some 5 },
        { entries := [("rate_limit:user:bob", { count := 6, expiresAt := none })],
          now := 0, connectFails := false, opsFail := false }) :=
  (two_tier_order_and_budgets (mkUserReq "bob") 5 60000 (some "bob") stUserFull
    { entries := [("rate_limit:user:bob", { count := 6, expiresAt := none })],
      now := 0, connectFails := false, opsFail := false }
    { allowed := false, retryAfter := some 60 } (by rfl)).1 (by rfl)

lemma find?_filter_ne (l : List (String × CounterEntry)) (key k' : String) (hne : key ≠ k') :
    (l.filter (fun kv => kv.1 != k')).find? (fun kv => kv.1 == key)
      = l.find? (fun kv => kv.1 == key) := by
  induction l with
  | nil => rfl
  | cons kv l ih =>
      by_cases h1 : kv.1 = key
      · rw [List.filter_cons, if_pos (by simp [h1, hne])]
        rw [List.find?_cons_of_pos _ (by simp [h1]), List.find?_cons_of_pos _ (by simp [h1])]
      · by_cases h2 : kv.1 = k'
        · rw [List.filter_cons, if_neg (by simp [h2])]
          rw [ih, List.find?_cons_of_neg _ (by simp [h1])]
        · rw [List.filter_cons, if_pos (by simp [h2])]
          rw [List.find?_cons_of_neg _ (by simp [h1]), List.find?_cons_of_neg _ (by simp [h1]),
            ih]

lemma lookup_set_self (st : RedisState) (key : String) (e : CounterEntry) :
    (st.set key e).lookup key = if e.live st.now then some e else none := by
  unfold RedisState.lookup RedisState.set
  rw [List.find?_cons_of_pos _ (by simp)]

lemma lookup_set_ne (st : RedisState) (key k' : String) (e : CounterEntry) (hne : key ≠ k') :
    (st.set k' e).lookup key = st.lookup key := by
  unfold RedisState.lookup RedisState.set
  rw [List.find?_cons_of_neg _ (by simp [Ne.symm hne])]
  rw [find?_filter_ne st.entries key k' hne]

lemma countAt_set_self (st : RedisState) (key : String) (e : CounterEntry) :
    countAt (st.set key e) key = if e.live st.now then e.count else 0 := by
  unfold countAt
  rw [lookup_set_self]
  by_cases h : e.live st.now
  · rw [if_pos h, if_pos h]
  · rw [if_neg h, if_neg h]

lemma countAt_set_ne (st : RedisState) (key k' : String) (e : CounterEntry) (hne : key ≠ k') :
    countAt (st.set k' e) key = countAt st key := by
  unfold countAt
  rw [lookup_set_ne st key k' e hne]

lemma lookup_live (st : RedisState) (key : String) (e : CounterEntry)
    (h : st.lookup key = some e) : e.live st.now = true := by
  unfold RedisState.lookup at h
  rcases hf : st.entries.find? (fun kv => kv.1 == key) with _ | kv
  · simp only [hf] at h
    exact Option.noConfusion h
  · simp only [hf] at h
    by_cases hl : kv.2.live st.now
    · rw [if_pos hl] at h
      injection h with h
      rw [← h]; exact hl
    · rw [if_neg hl] at h; cases h

lemma now_set (st : RedisState) (k : String) (e : CounterEntry) :
    (st.set k e).now = st.now := rfl

lemma expire_after_set (st : RedisState) (key : String) (e : CounterEntry) (secs : Nat)
    (hlive : e.live st.now = true) :
    (st.set key e).expire key secs
      = (st.set key e).set key { e with expiresAt := some (st.now + secs) } := by
  unfold RedisState.expire
  rw [lookup_set_self, if_pos hlive]
  rfl

lemma checkRateLimit_effect (st : RedisState) (maxR w : Nat) (id' : String)
    (res : RLResult) (st' : RedisState)
    (hconn : st.connectFails = false) (hops : st.opsFail = false)
    (hw : 0 < ceilSeconds w)
    (h : checkRateLimit st maxR w id' = Except.ok (res, st')) :
    countAt st' ("rate_limit:" ++ id') = countAt st ("rate_limit:" ++ id') + 1 ∧
    (∀ key', key' ≠ "rate_limit:" ++ id' → countAt st' key' = countAt st key') ∧
    st'.now = st.now ∧ st'.connectFails = false ∧ st'.opsFail = false := by
  rcases hl : st.lookup ("rate_limit:" ++ id') with _ | e
  · simp only [checkRateLimit, hconn, hops, Bool.false_eq_true, if_false,
      RedisState.incr, hl, eq_self_iff_true, if_true] at h
    rw [expire_after_set st ("rate_limit:" ++ id') { count := 1, expiresAt := none }
      (ceilSeconds w) rfl] at h
    have hst : st' = (st.set ("rate_limit:" ++ id') { count := 1, expiresAt := none }).set
        ("rate_limit:" ++ id')
        { count := 1, expiresAt := some (st.now + ceilSeconds w) } := by
      split at h <;>
        (simp only [Except.ok.injEq, Prod.mk.injEq] at h; exact h.2.symm)
    subst hst
    refine ⟨?_, ?_, rfl, hconn, hops⟩
    · simp only [countAt_set_self, now_set]
      have hlv : CounterEntry.live st.now
          { count := 1, expiresAt := some (st.now + ceilSeconds w) } = true := by
        simp only [CounterEntry.live, decide_eq_true_eq]
        omega
      rw [hlv, if_pos rfl]
      unfold countAt
      rw [hl]
    · intro key' hne
      rw [countAt_set_ne _ _ _ _ hne, countAt_set_ne _ _ _ _ hne]
  · simp only [checkRateLimit, hconn, hops, Bool.false_eq_true, if_false,
      RedisState.incr, hl] at h
    have hlive : e.live st.now = true := lookup_live st _ e hl
    by_cases hc1 : e.count + 1 = 1
    · rw [if_pos hc1] at h
      rw [expire_after_set st _ { count := e.count + 1, expiresAt := e.expiresAt } _
        (show CounterEntry.live st.now
            { count := e.count + 1, expiresAt := e.expiresAt } = true from hlive)] at h
      have hst : st' = (st.set ("rate_limit:" ++ id')
          { count := e.count + 1, expiresAt := e.expiresAt }).set ("rate_limit:" ++ id')
          { count := e.count + 1, expiresAt := some (st.now + ceilSeconds w) } := by
        split at h <;>
          (simp only [Except.ok.injEq, Prod.mk.injEq] at h; exact h.2.symm)
      subst hst
      refine ⟨?_, ?_, rfl, hconn, hops⟩
      · simp only [countAt_set_self, now_set]
        have hlv : CounterEntry.live st.now
            { count := e.count + 1, expiresAt := some (st.now + ceilSeconds w) } = true := by
          simp only [CounterEntry.live, decide_eq_true_eq]
          omega
        rw [hlv, if_pos rfl]
        unfold countAt
        rw [hl]
      · intro key' hne
        rw [countAt_set_ne _ _ _ _ hne, countAt_set_ne _ _ _ _ hne]
    · rw [if_neg hc1] at h
      have hst : st' = st.set ("rate_limit:" ++ id')
          { count := e.count + 1, expiresAt := e.expiresAt } := by
        split at h <;>
          (simp only [Except.ok.injEq, Prod.mk.injEq] at h; exact h.2.symm)
      subst hst
      refine ⟨?_, ?_, rfl, hconn, hops⟩
      · simp only [countAt_set_self, now_set]
        have hlv : CounterEntry.live st.now
            { count := e.count + 1, expiresAt := e.expiresAt } = true := hlive
        rw [hlv, if_pos rfl]
        unfold countAt
        rw [hl]
      · intro key' hne
        rw [countAt_set_ne _ _ _ _ hne]

lemma user_ip_key_ne (u i : String) :
    ("rate_limit:" ++ ("user:" ++ u)) ≠ ("rate_limit:" ++ ("ip:" ++ i)) := by
  intro h
  have hd := congrArg String.data h
  rw [String.data_append, String.data_append, String.data_append, String.data_append] at hd
  have hd' := List.append_cancel_left hd
  have hu : "user:".data = 'u' :: "ser:".data := rfl
  have hi : "ip:".data = 'i' :: "p:".data := rfl
  rw [hu, hi, List.cons_append, List.cons_append] at hd'
  injection hd' with h1 h2
  exact absurd h1 (by decide)

lemma checkRateLimit_no_error (st : RedisState) (maxR w : Nat) (id' : String)
    (hconn : st.connectFails = false) (e : Unit) :
    checkRateLimit st maxR w id' ≠ Except.error e := by
  intro h
  simp only [checkRateLimit, hconn, Bool.false_eq_true, if_false] at h
  by_cases hops : st.opsFail = true
  · rw [if_pos hops] at h
    exact Except.noConfusion h
  · rw [if_neg hops] at h
    split at h <;> exact Except.noConfusion h

/-- C10: the handler runs both rate-limit tiers before validating the body:
every parsed purchase request — including one later rejected as malformed
with the bad-request status — increments the user-tier counter (keyed under
the literal fallback `anonymous` when no userId is supplied anywhere), and
increments the IP-tier counter whenever the user tier allows; when both
tiers allow and `productId` is falsy the response is the 400. -/
theorem rate_limit_before_validation (req : Request) (db : Db) (redis : RedisState)
    (hconn : redis.connectFails = false) (hops : redis.opsFail = false) :
    countAt (POST req db redis).2.2 (userKey req) = countAt redis (userKey req) + 1 ∧
    (userTierAllowed req redis = true →
      countAt (POST req db redis).2.2 (ipKey req) = countAt redis (ipKey req) + 1) ∧
    (req.bodyUserId = none → req.queryUserId = none →
      userKey req = "rate_limit:" ++ ("user:" ++ "anonymous")) ∧
    (userTierAllowed req redis = true → ipTierAllowed req redis = true →
      jsTruthyInt req.bodyProductId = false →
      (POST req db redis).1.status = 400) := by
  have hanon : req.bodyUserId = none → req.queryUserId = none →
      userKey req = "rate_limit:" ++ ("user:" ++ "anonymous") := by
    intro h1 h2
    simp [userKey, finalUserIdOf, jsOrStr, h1, h2]
  have hneq : userKey req ≠ ipKey req :=
    user_ip_key_ne (finalUserIdOf req.bodyUserId req) (ipOf req)
  rcases hu : checkRateLimit redis 5 60000 ("user:" ++ finalUserIdOf req.bodyUserId req)
    with e | ⟨ur, st1⟩
  · exact absurd hu (checkRateLimit_no_error redis 5 60000 _ hconn e)
  · obtain ⟨hu1, hu2, hu3, hu4, hu5⟩ :=
      checkRateLimit_effect redis 5 60000 _ ur st1 hconn hops (by decide) hu
    by_cases ha : ur.allowed = false
    · have hmw : rateLimitMiddleware req 5 60000 req.bodyUserId redis =
          Except.ok (some
            { status := 429, success := false,
              message := some "Rate limit exceeded for user", order := none,
              retryAfterHeader := some (jsOrInt ur.retryAfter 60),
              limitHeader := some 5 }, st1) := by
        simp only [rateLimitMiddleware, hu, ha, if_true]
      have hfin : (POST req db redis).2.2 = st1 := by
        simp only [POST, hmw]
      have hdead : userTierAllowed req redis = false := by
        simp only [userTierAllowed, hu]
        exact ha
      refine ⟨?_, ?_, hanon, ?_⟩
      · rw [hfin]; exact hu1
      · intro hta; rw [hdead] at hta; cases hta
      · intro hta; rw [hdead] at hta; cases hta
    · have ha' : ur.allowed = true := by
        revert ha; cases ur.allowed <;> simp
      rcases hip : checkRateLimit st1 10 60000 ("ip:" ++ ipOf req) with e | ⟨ir, st2⟩
      · exact absurd hip (checkRateLimit_no_error st1 10 60000 _ hu4 e)
      · obtain ⟨hi1, hi2, hi3, hi4, hi5⟩ :=
          checkRateLimit_effect st1 10 60000 _ ir st2 hu4 hu5 (by decide) hip
        have huser2 : countAt st2 (userKey req) = countAt st1 (userKey req) :=
          hi2 (userKey req) hneq
        have hipc : countAt st1 (ipKey req) = countAt redis (ipKey req) :=
          hu2 (ipKey req) (Ne.symm hneq)
        by_cases hb : ir.allowed = false
        · have hmw : rateLimitMiddleware req 5 60000 req.bodyUserId redis =
              Except.ok (some
                { status := 429, success := false,
                  message := some "Rate limit exceeded for IP", order := none,
                  retryAfterHeader := some (jsOrInt ir.retryAfter 60),
                  limitHeader := some 10 }, st2) := by
            simp [rateLimitMiddleware, hu, ha', hip, hb]
          have hfin : (POST req db redis).2.2 = st2 := by
            simp only [POST, hmw]
          have hdead : ipTierAllowed req redis = false := by
            simp only [ipTierAllowed, hu, hip]
            exact hb
          refine ⟨?_, ?_, hanon, ?_⟩
          · rw [hfin, huser2]; exact hu1
          · intro _
            rw [hfin]
            simp only [ipKey]
            rw [hi1, hu2 ("rate_limit:" ++ ("ip:" ++ ipOf req)) (Ne.symm hneq)]
          · intro _ htp; rw [hdead] at htp; cases htp
        · have hb' : ir.allowed = true := by
            revert hb; cases ir.allowed <;> simp
          have hmw : rateLimitMiddleware req 5 60000 req.bodyUserId redis =
              Except.ok (none, st2) := by
            simp [rateLimitMiddleware, hu, ha', hip, hb']
          have hfin : (POST req db redis).2.2 = st2 := by
            simp only [POST, hmw]
            by_cases hv : jsTruthyInt req.bodyProductId = false ∨
                jsTruthyStr req.bodyUserId = false
            · rw [if_pos hv]
            · rw [if_neg hv]
          refine ⟨?_, ?_, hanon, ?_⟩
          · rw [hfin, huser2]; exact hu1
          · intro _
            rw [hfin]
            simp only [ipKey]
            rw [hi1, hu2 ("rate_limit:" ++ ("ip:" ++ ipOf req)) (Ne.symm hneq)]
          · intro _ _ hfalsy
            simp only [POST, hmw, hfalsy]
            rw [if_pos (Or.inl trivial)]

/-- Witness for C10: the fully-anonymous malformed request (no productId, no
userId anywhere) still charges the `rate_limit:user:anonymous` counter. -/
theorem rate_limit_before_validation_witness :
    countAt (POST reqAnon sampleDb redisFresh).2.2 (userKey reqAnon)
      = countAt redisFresh (userKey reqAnon) + 1 :=
  (rate_limit_before_validation reqAnon sampleDb redisFresh rfl rfl).1

lemma checkRateLimit_live_step (st : RedisState) (maxR W : Nat) (id' : String)
    (c e : Nat)
    (hconn : st.connectFails = false) (hops : st.opsFail = false)
    (hfind : st.entries.find? (fun kv => kv.1 == "rate_limit:" ++ id')
        = some ("rate_limit:" ++ id', { count := c, expiresAt := some e }))
    (hc : 1 ≤ c) (hlt : st.now < e) :
    checkRateLimit st maxR W id' =
      Except.ok
        ((if c + 1 > maxR
            then { allowed := false, retryAfter := some ((e : Int) - (st.now : Int)) }
            else { allowed := true, retryAfter := none }),
         st.set ("rate_limit:" ++ id') { count := c + 1, expiresAt := some e }) := by
  have hlive : CounterEntry.live st.now { count := c, expiresAt := some e } = true := by
    simp only [CounterEntry.live, decide_eq_true_eq]
    omega
  have hlook : st.lookup ("rate_limit:" ++ id')
      = some { count := c, expiresAt := some e } := by
    unfold RedisState.lookup
    simp only [hfind]
    rw [if_pos hlive]
  have hlive2 : CounterEntry.live st.now { count := c + 1, expiresAt := some e } = true := by
    simp only [CounterEntry.live, decide_eq_true_eq]
    omega
  have httl : (st.set ("rate_limit:" ++ id') { count := c + 1, expiresAt := some e }).ttl
      ("rate_limit:" ++ id') = (e : Int) - (st.now : Int) := by
    unfold RedisState.ttl
    rw [lookup_set_self, if_pos hlive2]
    rfl
  simp only [checkRateLimit, hconn, hops, Bool.false_eq_true, if_false,
    RedisState.incr, hlook]
  rw [if_neg (show ¬(c + 1 = 1) by omega)]
  by_cases hgt : c + 1 > maxR
  · rw [if_pos hgt, if_pos hgt]
    rw [httl]
    rw [if_pos (show (0 : Int) < (e : Int) - (st.now : Int) by omega)]
  · rw [if_neg hgt, if_neg hgt]

lemma checkRateLimit_fresh_step (st : RedisState) (maxR W : Nat) (id' : String)
    (hconn : st.connectFails = false) (hops : st.opsFail = false)
    (hfresh : st.entries.find? (fun kv => kv.1 == "rate_limit:" ++ id') = none)
    (hwpos : 0 < ceilSeconds W) :
    checkRateLimit st maxR W id' =
      Except.ok
        ((if 1 > maxR
            then { allowed := false, retryAfter := some ((ceilSeconds W : Nat) : Int) }
            else { allowed := true, retryAfter := none }),
         (st.set ("rate_limit:" ++ id') { count := 1, expiresAt := none }).set
           ("rate_limit:" ++ id')
           { count := 1, expiresAt := some (st.now + ceilSeconds W) }) := by
  have hlook : st.lookup ("rate_limit:" ++ id') = none := by
    unfold RedisState.lookup
    rw [hfresh]
  have hlive2 : CounterEntry.live
      (st.set ("rate_limit:" ++ id') { count := 1, expiresAt := none }).now
      { count := 1, expiresAt := some (st.now + ceilSeconds W) } = true := by
    simp only [CounterEntry.live, now_set, decide_eq_true_eq]
    omega
  have httl : ((st.set ("rate_limit:" ++ id') { count := 1, expiresAt := none }).set
      ("rate_limit:" ++ id')
      { count := 1, expiresAt := some (st.now + ceilSeconds W) }).ttl
      ("rate_limit:" ++ id')
      = ((st.now + ceilSeconds W : Nat) : Int) - (st.now : Int) := by
    unfold RedisState.ttl
    rw [lookup_set_self, if_pos hlive2]
    rfl
  simp only [checkRateLimit, hconn, hops, Bool.false_eq_true, if_false,
    RedisState.incr, hlook, eq_self_iff_true, if_true]
  rw [expire_after_set st ("rate_limit:" ++ id') { count := 1, expiresAt := none }
    (ceilSeconds W) rfl]
  by_cases hgt : 1 > maxR
  · rw [if_pos hgt, if_pos hgt]
    rw [httl]
    rw [if_pos (show (0 : Int) < ((st.now + ceilSeconds W : Nat) : Int) - (st.now : Int)
      by omega)]
    have hsub : ((st.now + ceilSeconds W : Nat) : Int) - (st.now : Int)
        = ((ceilSeconds W : Nat) : Int) := by omega
    rw [hsub]
  · rw [if_neg hgt, if_neg hgt]

lemma checkCalls_live_run (maxR W : Nat) (id' : String) (e : Nat) :
    ∀ (ts : List Nat) (st : RedisState) (c : Nat),
      st.connectFails = false → st.opsFail = false →
      st.entries.find? (fun kv => kv.1 == "rate_limit:" ++ id')
          = some ("rate_limit:" ++ id', { count := c, expiresAt := some e }) →
      1 ≤ c → (∀ t ∈ ts, t < e) →
      ((checkCalls maxR W id' st ts).2.entries.find?
           (fun kv => kv.1 == "rate_limit:" ++ id')
         = some ("rate_limit:" ++ id',
             { count := c + ts.length, expiresAt := some e })) ∧
      (checkCalls maxR W id' st ts).2.connectFails = false ∧
      (checkCalls maxR W id' st ts).2.opsFail = false ∧
      (checkCalls maxR W id' st ts).1.length = ts.length ∧
      (∀ j t, ts.get? j = some t → c + j + 1 ≤ maxR →
        (checkCalls maxR W id' st ts).1.get? j
          = some (Except.ok { allowed := true, retryAfter := none })) ∧
      (∀ j t, ts.get? j = some t → c + j + 1 > maxR →
        (checkCalls maxR W id' st ts).1.get? j
          = some (Except.ok
              { allowed := false, retryAfter := some ((e : Int) - (t : Int)) })) := by
  intro ts
  induction ts with
  | nil =>
      intro st c hconn hops hfind hc _
      refine ⟨?_, hconn, hops, rfl, ?_, ?_⟩
      · simpa using hfind
      · intro j t hj; cases hj
      · intro j t hj; cases hj
  | cons t ts ih =>
      intro st c hconn hops hfind hc hwin
      have hstep := checkRateLimit_live_step { st with now := t } maxR W id' c e
        hconn hops hfind hc (hwin t (by simp))
      have hfind' : (({ st with now := t } : RedisState).set ("rate_limit:" ++ id')
          { count := c + 1, expiresAt := some e }).entries.find?
          (fun kv => kv.1 == "rate_limit:" ++ id')
          = some ("rate_limit:" ++ id', { count := c + 1, expiresAt := some e }) := by
        unfold RedisState.set
        exact List.find?_cons_of_pos _ (by simp)
      obtain ⟨ih1, ih2, ih3, ih4, ih5, ih6⟩ :=
        ih (({ st with now := t } : RedisState).set ("rate_limit:" ++ id')
            { count := c + 1, expiresAt := some e }) (c + 1)
          hconn hops hfind' (by omega) (fun u hu => hwin u (by simp [hu]))
      have hcc : checkCalls maxR W id' st (t :: ts)
          = ((Except.ok (if c + 1 > maxR
                then { allowed := false, retryAfter := some ((e : Int) - (t : Int)) }
                else { allowed := true, retryAfter := none })) ::
              (checkCalls maxR W id' (({ st with now := t } : RedisState).set
                ("rate_limit:" ++ id')
                { count := c + 1, expiresAt := some e }) ts).1,
             (checkCalls maxR W id' (({ st with now := t } : RedisState).set
                ("rate_limit:" ++ id')
                { count := c + 1, expiresAt := some e }) ts).2) := by
        simp only [checkCalls, hstep]
      rw [hcc]
      refine ⟨ih1.trans (by rw [List.length_cons]; ring_nf), ih2, ih3, ?_, ?_, ?_⟩
      · simp [ih4]
      · intro j u hj hle
        cases j with
        | zero =>
            simp only [List.get?_cons_zero] at hj ⊢
            rw [if_neg (by omega)]
        | succ j =>
            simp only [List.get?_cons_succ] at hj ⊢
            exact ih5 j u hj (by omega)
      · intro j u hj hgt
        cases j with
        | zero =>
            simp only [List.get?_cons_zero] at hj ⊢
            injection hj with hj
            subst hj
            rw [if_pos (by omega)]
        | succ j =>
            simp only [List.get?_cons_succ] at hj ⊢
            exact ih6 j u hj (by omega)

lemma checkCalls_append (maxR W : Nat) (id' : String) (l₁ l₂ : List Nat) :
    ∀ st : RedisState,
      checkCalls maxR W id' st (l₁ ++ l₂)
        = ((checkCalls maxR W id' st l₁).1
             ++ (checkCalls maxR W id' (checkCalls maxR W id' st l₁).2 l₂).1,
           (checkCalls maxR W id' (checkCalls maxR W id' st l₁).2 l₂).2) := by
  induction l₁ with
  | nil => intro st; rfl
  | cons t l₁ ih =>
      intro st
      rcases h : checkRateLimit { st with now := t } maxR W id' with er | r
      · simp only [List.cons_append, checkCalls, h, List.append_eq, ih]
      · simp only [List.cons_append, checkCalls, h, List.append_eq, ih]

/-- C7: fixed-window law. Starting from a store with no counter for the
identifier, given `maxRequests = N` and a window of `windowMs > 0`
milliseconds, a call at time `t` followed by `N` further calls at times
within the window (before `t + ceil(windowMs/1000)`) behaves as: the first
`N` calls are allowed, the `(N+1)`th is denied with `retryAfterSeconds > 0`;
and after every non-empty prefix of the calls the counter equals the number
of calls made while its expiry is exactly `t + ceil(windowMs/1000)` — set by
the call whose post-increment count was 1 and never extended by later calls
in the window. -/
theorem rate_limit_fixed_window_law (st : RedisState) (identifier : String)
    (N windowMs t : Nat) (ts : List Nat)
    (hconn : st.connectFails = false) (hops : st.opsFail = false)
    (hfresh : st.entries.find? (fun kv => kv.1 == "rate_limit:" ++ identifier) = none)
    (hlen : ts.length = N)
    (hwin : ∀ u ∈ ts, u < t + ceilSeconds windowMs)
    (hw : 0 < windowMs) :
    (checkCalls N windowMs identifier st (t :: ts)).1.length = N + 1 ∧
    (∀ j, j < N →
      (checkCalls N windowMs identifier st (t :: ts)).1.get? j
        = some (Except.ok { allowed := true, retryAfter := none })) ∧
    (∃ ra : Int, 0 < ra ∧
      (checkCalls N windowMs identifier st (t :: ts)).1.get? N
        = some (Except.ok { allowed := false, retryAfter := some ra })) ∧
    (∀ l₁ l₂, t :: ts = l₁ ++ l₂ → l₁ ≠ [] →
      (checkCalls N windowMs identifier st l₁).2.entries.find?
          (fun kv => kv.1 == "rate_limit:" ++ identifier)
        = some ("rate_limit:" ++ identifier,
            { count := l₁.length, expiresAt := some (t + ceilSeconds windowMs) })) := by
  have hwp : 0 < ceilSeconds windowMs := by
    unfold ceilSeconds
    omega
  have hstep : checkRateLimit { st with now := t } N windowMs identifier =
      Except.ok
        ((if 1 > N
            then { allowed := false, retryAfter := some ((ceilSeconds windowMs : Nat) : Int) }
            else { allowed := true, retryAfter := none }),
         (({ st with now := t } : RedisState).set ("rate_limit:" ++ identifier)
            { count := 1, expiresAt := none }).set ("rate_limit:" ++ identifier)
            { count := 1, expiresAt := some (t + ceilSeconds windowMs) }) :=
    checkRateLimit_fresh_step _ _ _ _ hconn hops hfresh hwp
  set st1 : RedisState :=
    (({ st with now := t } : RedisState).set ("rate_limit:" ++ identifier)
      { count := 1, expiresAt := none }).set ("rate_limit:" ++ identifier)
      { count := 1, expiresAt := some (t + ceilSeconds windowMs) } with hst1
  have hfind1 : st1.entries.find? (fun kv => kv.1 == "rate_limit:" ++ identifier)
      = some ("rate_limit:" ++ identifier,
          { count := 1, expiresAt := some (t + ceilSeconds windowMs) }) := by
    rw [hst1]
    exact List.find?_cons_of_pos _ (by simp)
  obtain ⟨hr1, hr2, hr3, hr4, hr5, hr6⟩ :=
    checkCalls_live_run N windowMs identifier (t + ceilSeconds windowMs) ts st1 1
      hconn hops hfind1 (le_refl 1) hwin
  have hcc : checkCalls N windowMs identifier st (t :: ts)
      = ((Except.ok (if 1 > N
            then { allowed := false, retryAfter := some ((ceilSeconds windowMs : Nat) : Int) }
            else { allowed := true, retryAfter := none })) ::
          (checkCalls N windowMs identifier st1 ts).1,
         (checkCalls N windowMs identifier st1 ts).2) := by
    simp only [checkCalls, hstep]
  refine ⟨?_, ?_, ?_, ?_⟩
  · rw [hcc]
    simp [hr4, hlen]
  · intro j hj
    rw [hcc]
    cases j with
    | zero =>
        simp only [List.get?_cons_zero]
        rw [if_neg (by omega)]
    | succ j =>
        simp only [List.get?_cons_succ]
        have hjlt : j < ts.length := by omega
        obtain ⟨u, hu⟩ : ∃ u, ts.get? j = some u := by
          rcases hg : ts.get? j with _ | u
          · rw [List.get?_eq_none] at hg
            omega
          · exact ⟨u, rfl⟩
        exact hr5 j u hu (by omega)
  · rw [hcc]
    cases hN0 : N with
    | zero =>
        refine ⟨((ceilSeconds windowMs : Nat) : Int), by exact_mod_cast hwp, ?_⟩
        simp only [List.get?_cons_zero]
        rw [if_pos (by omega)]
    | succ M =>
        have hMlt : M < ts.length := by omega
        obtain ⟨u, hu⟩ : ∃ u, ts.get? M = some u := by
          rcases hg : ts.get? M with _ | u
          · rw [List.get?_eq_none] at hg
            omega
          · exact ⟨u, rfl⟩
        have humem : u ∈ ts := List.get?_mem hu
        refine ⟨((t + ceilSeconds windowMs : Nat) : Int) - (u : Int), ?_, ?_⟩
        · have := hwin u humem
          omega
        · simp only [List.get?_cons_succ]
          rw [← hN0]
          exact hr6 M u hu (by omega)
  · intro l₁ l₂ hsplit hne
    rcases l₁ with _ | ⟨a, l₁'⟩
    · exact absurd rfl hne
    · rw [List.cons_append] at hsplit
      injection hsplit with h1 h2
      subst h1
      have hccp : checkCalls N windowMs identifier st (t :: l₁')
          = ((Except.ok (if 1 > N
                then { allowed := false,
                       retryAfter := some ((ceilSeconds windowMs : Nat) : Int) }
                else { allowed := true, retryAfter := none })) ::
              (checkCalls N windowMs identifier st1 l₁').1,
             (checkCalls N windowMs identifier st1 l₁').2) := by
        simp only [checkCalls, hstep]
      obtain ⟨hp1, -, -, -, -, -⟩ :=
        checkCalls_live_run N windowMs identifier (t + ceilSeconds windowMs) l₁' st1 1
          hconn hops hfind1 (le_refl 1)
          (fun u hu => hwin u (by rw [h2]; exact List.mem_append_left _ hu))
      rw [hccp]
      have hlc : (t :: l₁').length = 1 + l₁'.length := by
        simp [Nat.add_comm]
      rw [hlc]
      exact hp1

/-- Witness for C7: `N = 2`, 60000 ms window, fresh store, calls at times
0, 1, 2 — the run produces 3 results (2 allowed, then one denial). -/
theorem rate_limit_fixed_window_law_witness :
    (checkCalls 2 60000 "user:w7" redisFresh [0, 1, 2]).1.length = 2 + 1 :=
  (rate_limit_fixed_window_law redisFresh "user:w7" 2 60000 0 [1, 2]
    rfl rfl rfl rfl (by decide) (by decide)).1

namespace Conc

lemma logQuantities_append (l : List (Nat × Nat × Bool)) (x : Nat × Nat × Bool) :
    logQuantities (l ++ [x]) = logQuantities l ++ [x.2.1] := by
  simp [logQuantities]

lemma logFlags_append (l : List (Nat × Nat × Bool)) (x : Nat × Nat × Bool) :
    logFlags (l ++ [x]) = logFlags l ++ [x.2.2] := by
  simp [logFlags]

lemma soldSum_append (l : List (Nat × Nat × Bool)) (x : Nat × Nat × Bool) :
    soldSum (l ++ [x]) = soldSum l + (if x.2.2 then x.2.1 else 0) := by
  rcases hx : x.2.2 <;>
    simp [soldSum, List.filter_append, hx]

lemma serialExec_append (S : Nat) (l : List Nat) (q : Nat) :
    serialExec S (l ++ [q])
      = if q ≤ (serialExec S l).1
          then ((serialExec S l).1 - q, (serialExec S l).2 ++ [true])
          else ((serialExec S l).1, (serialExec S l).2 ++ [false]) := by
  induction l generalizing S with
  | nil => simp [serialExec]
  | cons a t ih =>
      by_cases h : a ≤ S
      · simp [serialExec, h, ih]
        split_ifs <;> simp
      · simp [serialExec, h, ih]
        split_ifs <;> simp

lemma step_preserves_Inv (qs : List Nat) (S : Nat) (s : ConcState) (i : Nat)
    (h : Inv qs S s) : Inv qs S (step qs s i) := by
  obtain ⟨hLock, hStock, hFlags, hAcc, hLog, hNodup⟩ := h
  rcases hq : qs.get? i with _ | q
  · have hs : step qs s i = s := by
      simp only [step, hq]
    rw [hs]
    exact ⟨hLock, hStock, hFlags, hAcc, hLog, hNodup⟩
  · rcases hp : s.phase i with _ | r | b
    · by_cases hl : s.lockHolder = none
      · have hs : step qs s i
            = { stock := s.stock, lockHolder := some i,
                phase := updPhase s.phase i (TxPhase.locked s.stock), log := s.log } := by
          simp only [step, hq, hp]
          rw [if_pos hl]
        rw [hs]
        refine ⟨?_, hStock, hFlags, hAcc, ?_, hNodup⟩
        · intro j r' hj
          by_cases hji : j = i
          · subst hji
            simp only [updPhase, if_pos rfl] at hj
            injection hj with hj
            exact ⟨rfl, hj.symm⟩
          · simp only [updPhase, if_neg hji] at hj
            obtain ⟨hly, -⟩ := hLock j r' hj
            rw [hl] at hly
            cases hly
        · intro e he
          obtain ⟨he1, he2⟩ := hLog e he
          refine ⟨he1, ?_⟩
          by_cases hei : e.1 = i
          · rw [hei, hp] at he2
            cases he2
          · simp only [updPhase, if_neg hei]
            exact he2
      · have hs : step qs s i = s := by
          simp only [step, hq, hp]
          rw [if_neg hl]
        rw [hs]
        exact ⟨hLock, hStock, hFlags, hAcc, hLog, hNodup⟩
    · by_cases hl : s.lockHolder = some i
      · obtain ⟨-, hr⟩ := hLock i r hp
        have hnotin : i ∉ s.log.map Prod.fst := by
          intro hmem
          obtain ⟨e, hel, hei⟩ := List.mem_map.mp hmem
          obtain ⟨-, he2⟩ := hLog e hel
          rw [hei, hp] at he2
          cases he2
        by_cases hqr : q ≤ r
        · have hs : step qs s i
              = { stock := r - q, lockHolder := none,
                  phase := updPhase s.phase i (TxPhase.txDone true),
                  log := s.log ++ [(i, q, true)] } := by
            simp only [step, hq, hp]
            rw [if_pos hl, if_pos hqr]
          rw [hs]
          have hq1 : q ≤ (serialExec S (logQuantities s.log)).1 := by
            rw [← hStock, ← hr]
            exact hqr
          refine ⟨?_, ?_, ?_, ?_, ?_, ?_⟩
          · intro j r' hj
            by_cases hji : j = i
            · subst hji
              simp only [updPhase, if_pos rfl] at hj
              cases hj
            · simp only [updPhase, if_neg hji] at hj
              obtain ⟨hly, -⟩ := hLock j r' hj
              rw [hl] at hly
              injection hly with hly
              exact absurd hly.symm hji
          · show r - q = (serialExec S (logQuantities (s.log ++ [(i, q, true)]))).1
            rw [logQuantities_append, serialExec_append, if_pos hq1, ← hStock, hr]
          · show logFlags (s.log ++ [(i, q, true)])
                = (serialExec S (logQuantities (s.log ++ [(i, q, true)]))).2
            rw [logQuantities_append, logFlags_append, serialExec_append, if_pos hq1, hFlags]
          · show r - q + soldSum (s.log ++ [(i, q, true)]) = S
            rw [soldSum_append]
            simp only [eq_self_iff_true, if_true]
            rw [hr] at hqr ⊢
            omega
          · intro e he
            rcases List.mem_append.mp he with hel | hex
            · obtain ⟨he1, he2⟩ := hLog e hel
              refine ⟨he1, ?_⟩
              have hei : e.1 ≠ i := by
                intro hei
                rw [hei, hp] at he2
                cases he2
              simp only [updPhase, if_neg hei]
              exact he2
            · rw [List.mem_singleton.mp hex]
              exact ⟨hq, by simp [updPhase]⟩
          · show ((s.log ++ [(i, q, true)]).map Prod.fst).Nodup
            rw [List.map_append]
            simp only [List.map_cons, List.map_nil]
            rw [List.nodup_append]
            refine ⟨hNodup, List.nodup_singleton i, ?_⟩
            intro a ha hb
            rw [List.mem_singleton.mp hb] at ha
            exact hnotin ha
        · have hs : step qs s i
              = { stock := s.stock, lockHolder := none,
                  phase := updPhase s.phase i (TxPhase.txDone false),
                  log := s.log ++ [(i, q, false)] } := by
            simp only [step, hq, hp]
            rw [if_pos hl, if_neg hqr]
          rw [hs]
          have hq1 : ¬ q ≤ (serialExec S (logQuantities s.log)).1 := by
            rw [← hStock, ← hr]
            exact hqr
          refine ⟨?_, ?_, ?_, ?_, ?_, ?_⟩
          · intro j r' hj
            by_cases hji : j = i
            · subst hji
              simp only [updPhase, if_pos rfl] at hj
              cases hj
            · simp only [updPhase, if_neg hji] at hj
              obtain ⟨hly, -⟩ := hLock j r' hj
              rw [hl] at hly
              injection hly with hly
              exact absurd hly.symm hji
          · show s.stock = (serialExec S (logQuantities (s.log ++ [(i, q, false)]))).1
            rw [logQuantities_append, serialExec_append, if_neg hq1, ← hStock]
          · show logFlags (s.log ++ [(i, q, false)])
                = (serialExec S (logQuantities (s.log ++ [(i, q, false)]))).2
            rw [logQuantities_append, logFlags_append, serialExec_append, if_neg hq1, hFlags]
          · show s.stock + soldSum (s.log ++ [(i, q, false)]) = S
            rw [soldSum_append]
            simp only [Bool.false_eq_true, if_false]
            omega
          · intro e he
            rcases List.mem_append.mp he with hel | hex
            · obtain ⟨he1, he2⟩ := hLog e hel
              refine ⟨he1, ?_⟩
              have hei : e.1 ≠ i := by
                intro hei
                rw [hei, hp] at he2
                cases he2
              simp only [updPhase, if_neg hei]
              exact he2
            · rw [List.mem_singleton.mp hex]
              exact ⟨hq, by simp [updPhase]⟩
          · show ((s.log ++ [(i, q, false)]).map Prod.fst).Nodup
            rw [List.map_append]
            simp only [List.map_cons, List.map_nil]
            rw [List.nodup_append]
            refine ⟨hNodup, List.nodup_singleton i, ?_⟩
            intro a ha hb
            rw [List.mem_singleton.mp hb] at ha
            exact hnotin ha
      · have hs : step qs s i = s := by
          simp only [step, hq, hp]
          rw [if_neg hl]
        rw [hs]
        exact ⟨hLock, hStock, hFlags, hAcc, hLog, hNodup⟩
    · have hs : step qs s i = s := by
        simp only [step, hq, hp]
      rw [hs]
      exact ⟨hLock, hStock, hFlags, hAcc, hLog, hNodup⟩

lemma initState_Inv (qs : List Nat) (S : Nat) : Inv qs S (initState S) := by
  refine ⟨?_, rfl, rfl, rfl, ?_, ?_⟩
  · intro j r hj
    cases hj
  · intro e he
    exact absurd he (List.not_mem_nil e)
  · exact List.nodup_nil

lemma run_Inv (qs : List Nat) (S : Nat) (sched : List Nat) : Inv qs S (run qs S sched) := by
  unfold run
  have h : ∀ (l : List Nat) (s : ConcState), Inv qs S s → Inv qs S (l.foldl (step qs) s) := by
    intro l
    induction l with
    | nil => intro s hs; exact hs
    | cons a t ih => intro s hs; exact ih _ (step_preserves_Inv qs S s a hs)
  exact h sched _ (initState_Inv qs S)

end Conc

/-- C1: serializability of concurrent purchases of one product under the
`FOR UPDATE` row lock, in the interleaving model `Conc.run`: for any
quantities, any initial stock `S`, and any schedule, the stock and the
per-attempt outcomes recorded in commit order coincide exactly with the
purely serial execution of those attempts in that order (so no two
committed attempts acted on the same pre-decrement stock value), the total
quantity sold never exceeds `S`, final stock is `S` minus the total sold
(never negative, being a natural number), every logged attempt is one of
the scheduled transactions with its own quantity, and no transaction
commits twice. -/
theorem purchase_serializable_no_oversell (qs : List Nat) (S : Nat) (sched : List Nat) :
    (Conc.run qs S sched).stock
        = (Conc.serialExec S (Conc.logQuantities (Conc.run qs S sched).log)).1 ∧
    Conc.logFlags (Conc.run qs S sched).log
        = (Conc.serialExec S (Conc.logQuantities (Conc.run qs S sched).log)).2 ∧
    Conc.soldSum (Conc.run qs S sched).log ≤ S ∧
    (Conc.run qs S sched).stock + Conc.soldSum (Conc.run qs S sched).log = S ∧
    (∀ e ∈ (Conc.run qs S sched).log, qs.get? e.1 = some e.2.1) ∧
    ((Conc.run qs S sched).log.map Prod.fst).Nodup := by
  obtain ⟨h1, h2, h3, h4, h5, h6⟩ := Conc.run_Inv qs S sched
  exact ⟨h2, h3, by omega, h4, fun e he => (h5 e he).1, h6⟩
